import Mathlib

/-!
Verification of the abuse-control layer of the firmflow backend:
the fixed-window rate limiter (`src/rateLimiter.js`) and the user quota
service (`src/services/userQuota.js`), embedded shallowly.

JS `Map` objects are modelled as insertion-ordered association lists;
timestamps (`Date.now()`, milliseconds) are integers; JS numbers that
only ever hold integers are `Int`/`Nat`.
-/

/-! ## Association-list model of a JS `Map` -/

/-- `map.get(k)` / `map.has(k)`: first binding of `k`, if any. -/
def mapGet {β : Type} : List (String × β) → String → Option β
  | [], _ => none
  | (k', v) :: rest, k => if k' = k then some v else mapGet rest k

/-- `map.set(k, v)`: overwrite in place, or append a new binding at the
end (JS `Map` preserves insertion order; `set` on an existing key keeps
its position). -/
def mapSet {β : Type} : List (String × β) → String → β → List (String × β)
  | [], k, v => [(k, v)]
  | (k', v') :: rest, k, v =>
      if k' = k then (k, v) :: rest else (k', v') :: mapSet rest k v

/-- `map.delete(k)`: remove the binding of `k`, if present. -/
def mapDelete {β : Type} : List (String × β) → String → List (String × β)
  | [], _ => []
  | (k', v') :: rest, k =>
      if k' = k then rest else (k', v') :: mapDelete rest k

theorem mapGet_mapSet_self {β : Type} (l : List (String × β)) (k : String) (v : β) :
    mapGet (mapSet l k v) k = some v := by
  induction l with
  | nil => simp [mapGet, mapSet]
  | cons p rest ih =>
      obtain ⟨k', v'⟩ := p
      by_cases h : k' = k
      · simp [mapGet, mapSet, h]
      · simp [mapGet, mapSet, h, ih]

theorem mapGet_mapSet_ne {β : Type} (l : List (String × β)) (k k' : String) (v : β)
    (h : k ≠ k') : mapGet (mapSet l k v) k' = mapGet l k' := by
  induction l with
  | nil => simp [mapGet, mapSet, h]
  | cons p rest ih =>
      obtain ⟨k'', v''⟩ := p
      by_cases h2 : k'' = k
      · subst h2; simp [mapGet, mapSet, h]
      · simp [mapGet, mapSet, h2, ih]

theorem mapGet_mapDelete_ne {β : Type} (l : List (String × β)) (k k' : String)
    (h : k ≠ k') : mapGet (mapDelete l k) k' = mapGet l k' := by
  induction l with
  | nil => simp [mapDelete]
  | cons p rest ih =>
      obtain ⟨k'', v''⟩ := p
      by_cases h2 : k'' = k
      · subst h2; simp [mapGet, mapDelete, h]
      · simp [mapGet, mapDelete, h2, ih]

theorem mapGet_eq_none_of_forall {β : Type} (l : List (String × β)) (k : String)
    (h : ∀ p ∈ l, p.1 ≠ k) : mapGet l k = none := by
  induction l with
  | nil => rfl
  | cons p rest ih =>
      obtain ⟨k', v'⟩ := p
      have hk : k' ≠ k := h (k', v') (List.mem_cons_self _ _)
      simp [mapGet, hk]
      exact ih fun q hq => h q (List.mem_cons_of_mem _ hq)

theorem mapSet_eq_append_of_get_none {β : Type} (l : List (String × β)) (k : String)
    (v : β) (h : mapGet l k = none) : mapSet l k v = l ++ [(k, v)] := by
  induction l with
  | nil => rfl
  | cons p rest ih =>
      obtain ⟨k', v'⟩ := p
      by_cases h2 : k' = k
      · simp [mapGet, h2] at h
      · simp [mapGet, h2] at h
        simp [mapSet, h2, ih h]

theorem length_mapSet_of_none {β : Type} (l : List (String × β)) (k : String) (v : β)
    (h : mapGet l k = none) : (mapSet l k v).length = l.length + 1 := by
  rw [mapSet_eq_append_of_get_none l k v h]
  simp

theorem length_mapSet_of_some {β : Type} (l : List (String × β)) (k : String) (v w : β)
    (h : mapGet l k = some w) : (mapSet l k v).length = l.length := by
  induction l with
  | nil => simp [mapGet] at h
  | cons p rest ih =>
      obtain ⟨k', v'⟩ := p
      by_cases h2 : k' = k
      · simp [mapSet, h2]
      · simp only [mapGet, h2, if_false] at h
        simp [mapSet, h2, ih h]

theorem mem_of_mem_mapDelete {β : Type} (l : List (String × β)) (k : String)
    (p : String × β) (h : p ∈ mapDelete l k) : p ∈ l := by
  induction l with
  | nil => simp [mapDelete] at h
  | cons q rest ih =>
      obtain ⟨k', v'⟩ := q
      by_cases h2 : k' = k
      · simp only [mapDelete, h2, if_true] at h
        exact List.mem_cons_of_mem _ h
      · simp only [mapDelete, h2, if_false, List.mem_cons] at h
        rcases h with h | h
        · exact h ▸ List.mem_cons_self _ _
        · exact List.mem_cons_of_mem _ (ih h)

theorem length_mapDelete_ge {β : Type} (l : List (String × β)) (k : String) :
    l.length - 1 ≤ (mapDelete l k).length := by
  induction l with
  | nil => simp [mapDelete]
  | cons p rest ih =>
      obtain ⟨k', v'⟩ := p
      by_cases h : k' = k
      · simp [mapDelete, h]
      · simp only [mapDelete, h, if_false, List.length_cons]
        omega

theorem mem_of_mem_foldl_mapDelete {β : Type} (ks : List String)
    (l : List (String × β)) (p : String × β)
    (h : p ∈ ks.foldl mapDelete l) : p ∈ l := by
  induction ks generalizing l with
  | nil => simpa using h
  | cons k rest ih =>
      simp only [List.foldl_cons] at h
      exact mem_of_mem_mapDelete _ _ _ (ih _ h)

theorem mapGet_foldl_mapDelete_ne {β : Type} (ks : List String)
    (l : List (String × β)) (k : String) (h : ∀ k' ∈ ks, k' ≠ k) :
    mapGet (ks.foldl mapDelete l) k = mapGet l k := by
  induction ks generalizing l with
  | nil => rfl
  | cons k' rest ih =>
      simp only [List.foldl_cons]
      rw [ih _ fun x hx => h x (List.mem_cons_of_mem _ hx)]
      exact mapGet_mapDelete_ne _ _ _ (h k' (List.mem_cons_self _ _))

theorem length_foldl_mapDelete_ge {β : Type} (ks : List String)
    (l : List (String × β)) :
    l.length - ks.length ≤ (ks.foldl mapDelete l).length := by
  induction ks generalizing l with
  | nil => simp
  | cons k rest ih =>
      simp only [List.foldl_cons, List.length_cons]
      have h1 := length_mapDelete_ge l k
      have h2 := ih (mapDelete l k)
      omega

/-! ## RateLimiter: in-memory fixed-window backend

Embedding of `RateLimiter._checkLimitMemory` (src/rateLimiter.js,
lines 108-163).  The store maps `userId:key` to `{count, resetTime}`;
`now` is the caller's clock in milliseconds. -/

namespace RateLimiter

/-- A `memoryStore` entry: `{ count, resetTime }`. -/
structure Entry where
  count : Nat
  resetTime : Int
deriving Repr, DecidableEq

/-- The record returned by `checkLimit`: `{allowed, remaining, resetTime,
current, limit}`, plus `retryAfter` only when the call is rejected. -/
structure LimitResult where
  allowed : Bool
  remaining : Int
  resetTime : Int
  current : Nat
  limit : Int
  retryAfter : Option Int
deriving Repr, DecidableEq

abbrev MemStore := List (String × Entry)

/-- `RateLimiter._checkLimitMemory(userId, key, limit, windowSeconds)` at
clock value `now`: returns the result record and the updated store.
`retryAfter` is `Math.ceil((entry.resetTime - now) / 1000)`, computed only
on the rejecting branch, where `now < entry.resetTime`. -/
def checkLimitMemory (store : MemStore) (userId key : String)
    (limit : Int) (windowSeconds : Int) (now : Int) : LimitResult × MemStore :=
  let memoryKey := userId ++ ":" ++ key
  let windowMs := windowSeconds * 1000
  match mapGet store memoryKey with
  | none =>
      let entry : Entry := ⟨1, now + windowMs⟩
      (⟨true, limit - 1, now + windowMs, 1, limit, none⟩,
       mapSet store memoryKey entry)
  | some entry =>
      if now ≥ entry.resetTime then
        (⟨true, limit - 1, now + windowMs, 1, limit, none⟩,
         mapSet store memoryKey ⟨1, now + windowMs⟩)
      else
        let newCount := entry.count + 1
        let allowed : Bool := (newCount : Int) ≤ limit
        let remaining := max 0 (limit - (newCount : Int))
        let retryAfter : Option Int :=
          if allowed then none
          else some (((((entry.resetTime - now).toNat + 999) / 1000 : Nat) : Int))
        (⟨allowed, remaining, entry.resetTime, newCount, limit, retryAfter⟩,
         mapSet store memoryKey ⟨newCount, entry.resetTime⟩)

/-- Fold a list of call instants (for one user/key/limit/window) through
the memory backend, collecting the per-call results. -/
def runCalls (store : MemStore) (userId key : String) (limit : Int)
    (windowSeconds : Int) : List Int → List LimitResult × MemStore
  | [] => ([], store)
  | t :: ts =>
      let (r, s') := checkLimitMemory store userId key limit windowSeconds t
      let (rs, s'') := runCalls s' userId key limit windowSeconds ts
      (r :: rs, s'')

/-- The configured driver (`RATE_LIMIT_DRIVER`): `redis` or `memory`. -/
inductive Driver where
  | redis
  | memory
deriving Repr, DecidableEq

/-- Outcome of one attempt against the shared Redis backend inside
`_checkLimitRedis`: the client may be unavailable (`!redis ||
!redisClient.isReady()`), a pipeline/command error may be thrown (the
`catch` at lines 101-105), or the pipelined `INCR`+`TTL` round trip
succeeds with a post-increment count and a TTL in seconds. -/
inductive RedisAttempt where
  | unavailable
  | failure
  | success (count : Nat) (ttl : Int)
deriving Repr, DecidableEq

/-- The result record built on the successful Redis path (lines 75-99):
`allowed = currentCount <= limit`, `remaining = Math.max(0, limit -
currentCount)`, `resetTime = now + (ttl > 0 ? ttl : windowSeconds)·1000`,
and `retryAfter = ttl > 0 ? ttl : windowSeconds` only when rejected. -/
def redisResult (limit W now : Int) (count : Nat) (ttl : Int) : LimitResult :=
  let allowed : Bool := (count : Int) ≤ limit
  ⟨allowed, max 0 (limit - (count : Int)),
   now + (if 0 < ttl then ttl * 1000 else W * 1000), count, limit,
   if allowed then none else some (if 0 < ttl then ttl else W)⟩

/-- `_checkLimitRedis`: an unavailable client or a thrown error reaches the
memory fallback for this call only; a successful attempt answers from the
shared counter and leaves the local store untouched. -/
def checkLimitRedis (att : RedisAttempt) (store : MemStore) (userId key : String)
    (limit W now : Int) : LimitResult × MemStore :=
  match att with
  | .success count ttl => (redisResult limit W now count ttl, store)
  | _ => checkLimitMemory store userId key limit W now

/-- The mutable fields of the `RateLimiter` singleton: the configured
driver, the `initialized` flag and the in-process `memoryStore`. -/
structure RLState where
  driver : Driver
  initialized : Bool
  memoryStore : MemStore
deriving Repr, DecidableEq

/-- `initialize()` from lines 14-28, renamed here: a no-op once `initialized`; with the
redis driver it connects (`connectOk` is that attempt's outcome) and on
failure permanently switches the driver to memory. -/
def initDriver (st : RLState) (connectOk : Bool) : RLState :=
  if st.initialized then st
  else if st.driver = Driver.redis then
    if connectOk then { st with initialized := true }
    else { st with driver := Driver.memory, initialized := true }
  else { st with initialized := true }

/-- `checkLimit` (lines 38-46): awaits the initialization step, then dispatches on
the driver.  The JS method never throws: every failure path inside
`_checkLimitRedis` is caught and answered by `_checkLimitMemory`, which is
total, so the embedding returns a plain result. -/
def checkLimit (st : RLState) (connectOk : Bool) (att : RedisAttempt)
    (userId key : String) (limit W now : Int) : LimitResult × RLState :=
  let st := initDriver st connectOk
  if st.driver = Driver.redis then
    let p := checkLimitRedis att st.memoryStore userId key limit W now
    (p.1, { st with memoryStore := p.2 })
  else
    let p := checkLimitMemory st.memoryStore userId key limit W now
    (p.1, { st with memoryStore := p.2 })

/-- The result record produced by the increment branch after the
`c`-th call of a window ending at `R`, issued at instant `t`. -/
def expectedResult (limit : Int) (c : Nat) (R t : Int) : LimitResult :=
  ⟨decide ((c : Int) ≤ limit), max 0 (limit - (c : Int)), R, c, limit,
   if (c : Int) ≤ limit then none
   else some (((((R - t).toNat + 999) / 1000 : Nat) : Int))⟩

theorem checkLimitMemory_fresh (store : MemStore) (u k : String)
    (limit W now : Int) (h : mapGet store (u ++ ":" ++ k) = none) :
    checkLimitMemory store u k limit W now =
      (⟨true, limit - 1, now + W * 1000, 1, limit, none⟩,
       mapSet store (u ++ ":" ++ k) ⟨1, now + W * 1000⟩) := by
  simp [checkLimitMemory, h]

theorem checkLimitMemory_expired (store : MemStore) (u k : String)
    (limit W now : Int) (e : Entry) (h : mapGet store (u ++ ":" ++ k) = some e)
    (he : e.resetTime ≤ now) :
    checkLimitMemory store u k limit W now =
      (⟨true, limit - 1, now + W * 1000, 1, limit, none⟩,
       mapSet store (u ++ ":" ++ k) ⟨1, now + W * 1000⟩) := by
  simp [checkLimitMemory, h, he]

theorem checkLimitMemory_live (store : MemStore) (u k : String)
    (limit W now : Int) (e : Entry) (h : mapGet store (u ++ ":" ++ k) = some e)
    (he : now < e.resetTime) :
    checkLimitMemory store u k limit W now =
      (expectedResult limit (e.count + 1) e.resetTime now,
       mapSet store (u ++ ":" ++ k) ⟨e.count + 1, e.resetTime⟩) := by
  have hn : ¬ now ≥ e.resetTime := by omega
  simp [checkLimitMemory, h, hn, expectedResult]

/-- Running calls entirely inside a live window (every instant before the
stored `resetTime` `R`) from a store whose entry holds count `c`: the
`i`-th result is the increment-branch record for count `c + i + 1`, and
the final stored count is `c` plus the number of calls. -/
theorem runCalls_live (u k : String) (limit W R : Int) (ts : List Int)
    (hts : ∀ t ∈ ts, t < R) (c : Nat) (store : MemStore)
    (hstore : mapGet store (u ++ ":" ++ k) = some ⟨c, R⟩) :
    (∀ i t, ts.get? i = some t →
      (runCalls store u k limit W ts).1.get? i =
        some (expectedResult limit (c + i + 1) R t)) ∧
    mapGet (runCalls store u k limit W ts).2 (u ++ ":" ++ k) =
      some ⟨c + ts.length, R⟩ := by
  induction ts generalizing c store with
  | nil =>
      refine ⟨fun i t h => by simp [List.get?] at h, ?_⟩
      simpa using hstore
  | cons t ts ih =>
      have ht : t < R := hts t (List.mem_cons_self _ _)
      have hstep := checkLimitMemory_live store u k limit W t ⟨c, R⟩ hstore ht
      have hstore' :
          mapGet (mapSet store (u ++ ":" ++ k) ⟨c + 1, R⟩) (u ++ ":" ++ k) =
            some ⟨c + 1, R⟩ := mapGet_mapSet_self _ _ _
      have hrest := ih (fun t' ht' => hts t' (List.mem_cons_of_mem _ ht'))
        (c + 1) _ hstore'
      constructor
      · intro i t' hget
        match i with
        | 0 =>
            simp only [List.get?] at hget
            cases hget
            simp [runCalls, hstep]
        | i + 1 =>
            simp only [List.get?] at hget
            have := hrest.1 i t' hget
            simp only [runCalls, hstep]
            simpa [show c + 1 + i + 1 = c + (i + 1) + 1 by omega] using this
      · simp only [runCalls, hstep]
        simpa [show c + 1 + ts.length = c + (ts.length + 1) by omega]
          using hrest.2

/-- A full single-window run from a store with no entry for the scope
key: with `limit ≥ 1`, the `i`-th call (0-indexed, at instant
`(t0 :: ts).get? i`, each instant in `[t0, t0 + W·1000)`) yields exactly
the count-then-decide record for post-increment count `i + 1`. -/
theorem runCalls_window (u k : String) (limit W : Int) (hL : 1 ≤ limit)
    (t0 : Int) (ts : List Int) (store : MemStore)
    (h0 : mapGet store (u ++ ":" ++ k) = none)
    (hts : ∀ t ∈ ts, t < t0 + W * 1000) :
    ∀ i t, (t0 :: ts).get? i = some t →
      (runCalls store u k limit W (t0 :: ts)).1.get? i =
        some (expectedResult limit (i + 1) (t0 + W * 1000) t) := by
  have hstep := checkLimitMemory_fresh store u k limit W t0 h0
  have hstore' :
      mapGet (mapSet store (u ++ ":" ++ k) ⟨1, t0 + W * 1000⟩) (u ++ ":" ++ k) =
        some ⟨1, t0 + W * 1000⟩ := mapGet_mapSet_self _ _ _
  have hrest := runCalls_live u k limit W (t0 + W * 1000) ts hts 1 _ hstore'
  intro i t hget
  match i with
  | 0 =>
      simp only [List.get?] at hget
      cases hget
      have h1 : expectedResult limit 1 (t0 + W * 1000) t0 =
          ⟨true, limit - 1, t0 + W * 1000, 1, limit, none⟩ := by
        have hle : ((1 : Nat) : Int) ≤ limit := by exact_mod_cast hL
        simp [expectedResult, hle]
        omega
      simp [runCalls, hstep, h1]
  | i + 1 =>
      simp only [List.get?] at hget
      have := hrest.1 i t hget
      simp only [runCalls, hstep]
      simpa [show 1 + i + 1 = i + 1 + 1 by omega] using this

end RateLimiter

/-! ## Claims about the rate limiter -/

/-- C1 (counterexample): the claim fails at `limit = 0` on the first call
for a scope key.  `_checkLimitMemory`'s fresh-key branch returns
`allowed = true` unconditionally together with `remaining = limit - 1`,
so at `limit = 0` the post-increment count is `1 > 0` yet the call is
allowed, and `remaining = -1` is negative. -/
theorem C1_counterexample :
    ((RateLimiter.checkLimitMemory [] "u1" "k" 0 60 0).1.allowed = true) ∧
    ((RateLimiter.checkLimitMemory [] "u1" "k" 0 60 0).1.current = 1) ∧
    ¬ (((RateLimiter.checkLimitMemory [] "u1" "k" 0 60 0).1.current : Int) ≤ 0) ∧
    ((RateLimiter.checkLimitMemory [] "u1" "k" 0 60 0).1.remaining = -1) ∧
    ((RateLimiter.checkLimitMemory [] "u1" "k" 0 60 0).1.remaining < 0) := by
  decide

/-- C1 (amended): for every `checkLimit` call with `limit ≥ 1`, the
decision is made after incrementing: `allowed = (post-increment count ≤
limit)` and `remaining = max 0 (limit - post-increment count) ≥ 0`; in
particular with limit 3 and a 60-second window, ten in-window calls
return allowed/remaining `(true,2), (true,1), (true,0)` and then
`(false,0)` seven times. -/
theorem C1_count_then_decide (store : RateLimiter.MemStore) (u k : String)
    (limit W now : Int) (hL : 1 ≤ limit) :
    ((RateLimiter.checkLimitMemory store u k limit W now).1.allowed =
      decide (((RateLimiter.checkLimitMemory store u k limit W now).1.current : Int) ≤ limit)) ∧
    ((RateLimiter.checkLimitMemory store u k limit W now).1.remaining =
      max 0 (limit - ((RateLimiter.checkLimitMemory store u k limit W now).1.current : Int))) ∧
    (0 ≤ (RateLimiter.checkLimitMemory store u k limit W now).1.remaining) ∧
    ((RateLimiter.runCalls [] "u1" "k" 3 60
        [0, 1000, 2000, 3000, 4000, 5000, 6000, 7000, 8000, 9000]).1.map
          (fun r => (r.allowed, r.remaining)) =
      [(true, 2), (true, 1), (true, 0), (false, 0), (false, 0), (false, 0),
       (false, 0), (false, 0), (false, 0), (false, 0)]) := by
  refine ⟨?_, ?_, ?_, by decide⟩ <;>
  · rcases hm : mapGet store (u ++ ":" ++ k) with _ | e
    · rw [RateLimiter.checkLimitMemory_fresh store u k limit W now hm]
      simp
      omega
    · by_cases he : now < e.resetTime
      · rw [RateLimiter.checkLimitMemory_live store u k limit W now e hm he]
        simp [RateLimiter.expectedResult]
      · rw [RateLimiter.checkLimitMemory_expired store u k limit W now e hm (by omega)]
        simp
        omega

/-- C1 witness: the amended statement instantiated at a fresh store with
`limit = 5`. -/
theorem C1_count_then_decide_witness :
    (1 : Int) ≤ 5 ∧
    (((RateLimiter.checkLimitMemory [] "u1" "k" 5 60 0).1.allowed =
      decide (((RateLimiter.checkLimitMemory [] "u1" "k" 5 60 0).1.current : Int) ≤ 5)) ∧
    ((RateLimiter.checkLimitMemory [] "u1" "k" 5 60 0).1.remaining =
      max 0 (5 - ((RateLimiter.checkLimitMemory [] "u1" "k" 5 60 0).1.current : Int))) ∧
    (0 ≤ (RateLimiter.checkLimitMemory [] "u1" "k" 5 60 0).1.remaining) ∧
    ((RateLimiter.runCalls [] "u1" "k" 3 60
        [0, 1000, 2000, 3000, 4000, 5000, 6000, 7000, 8000, 9000]).1.map
          (fun r => (r.allowed, r.remaining)) =
      [(true, 2), (true, 1), (true, 0), (false, 0), (false, 0), (false, 0),
       (false, 0), (false, 0), (false, 0), (false, 0)])) :=
  ⟨by decide, C1_count_then_decide [] "u1" "k" 5 60 0 (by decide)⟩

/-- C2: in a run of calls all lying inside one window (instants in
`[t0, t0 + W·1000)`, fresh scope key, `limit ≥ 1`), the `K`-th call
(0-indexed) is allowed whenever `K + 1 ≤ limit`, and the call numbered
`limit + 1` (index `K = limit`) is rejected with `retryAfterSeconds`
equal to the rounded-up number of seconds until the window rolls over —
characterized by `1000·(n-1) < timeLeft ≤ 1000·n` — hence positive and
at most `W`. -/
theorem C2_window_limits (u k : String) (limit W : Int) (hL : 1 ≤ limit)
    (t0 : Int) (ts : List Int)
    (hts : ∀ t ∈ ts, t0 ≤ t ∧ t < t0 + W * 1000)
    (K : Nat) (t : Int) (hget : (t0 :: ts).get? K = some t)
    (r : RateLimiter.LimitResult)
    (hr : (RateLimiter.runCalls [] u k limit W (t0 :: ts)).1.get? K = some r) :
    (((K : Int) + 1 ≤ limit) → r.allowed = true) ∧
    ((K : Int) = limit → r.allowed = false ∧
      ∃ n : Nat, r.retryAfter = some ((n : Int)) ∧
        1000 * ((n : Int) - 1) < t0 + W * 1000 - t ∧
        t0 + W * 1000 - t ≤ 1000 * (n : Int) ∧
        0 < n ∧ (n : Int) ≤ W) := by
  have hwin := RateLimiter.runCalls_window u k limit W hL t0 ts []
    (by simp [mapGet]) (fun t' ht' => (hts t' ht').2) K t hget
  rw [hwin] at hr
  injection hr with hr
  subst hr
  constructor
  · intro hKle
    simp only [RateLimiter.expectedResult, decide_eq_true_eq]
    push_cast
    omega
  · intro hKeq
    have hnot : ¬ ((K + 1 : Nat) : Int) ≤ limit := by push_cast; omega
    have hKpos : 1 ≤ K := by
      have : (1 : Int) ≤ (K : Int) := by omega
      exact_mod_cast this
    have htmem : t ∈ ts := by
      cases K with
      | zero => omega
      | succ K =>
          simp only [List.get?] at hget
          exact List.get?_mem hget
    obtain ⟨ht0, htW⟩ := hts t htmem
    refine ⟨?_, ?_⟩
    · simp only [RateLimiter.expectedResult, decide_eq_false_iff_not]
      push_cast
      omega
    refine ⟨((t0 + W * 1000 - t).toNat + 999) / 1000, ?_, ?_⟩
    · simp only [RateLimiter.expectedResult]
      rw [if_neg hnot]
    have hWpos : 1 ≤ W := by nlinarith
    obtain ⟨w, hw⟩ : ∃ w : Nat, (w : Int) = W :=
      ⟨W.toNat, Int.toNat_of_nonneg (by omega)⟩
    obtain ⟨d, hd⟩ : ∃ d : Nat, (d : Int) = t0 + W * 1000 - t :=
      ⟨(t0 + W * 1000 - t).toNat, Int.toNat_of_nonneg (by omega)⟩
    have hdtoNat : (t0 + W * 1000 - t).toNat = d := by omega
    have hd1 : 1 ≤ d := by omega
    have hdW : d ≤ w * 1000 := by
      have : (d : Int) ≤ (w : Int) * 1000 := by rw [hw]; omega
      exact_mod_cast this
    rw [hdtoNat]
    have hq1 : 1000 * ((d + 999) / 1000) < d + 1000 := by omega
    have hq2 : d ≤ 1000 * ((d + 999) / 1000) := by omega
    have hq3 : (d + 999) / 1000 ≤ w := by omega
    refine ⟨?_, ?_, by omega, ?_⟩
    · push_cast
      omega
    · push_cast
      omega
    · rw [← hw]
      exact_mod_cast hq3

/-- C2 witness: limit 3, window 60 s, four calls at 0 s, 1 s, 2 s, 3 s;
the fourth call (index `K = 3 = limit`) is rejected with
`retryAfter = 57`. -/
theorem C2_window_limits_witness :
    (RateLimiter.expectedResult 3 4 60000 3000).allowed = false ∧
    (∃ n : Nat, (RateLimiter.expectedResult 3 4 60000 3000).retryAfter = some ((n : Int)) ∧
      1000 * ((n : Int) - 1) < 0 + 60 * 1000 - 3000 ∧
      0 + 60 * 1000 - 3000 ≤ 1000 * (n : Int) ∧
      0 < n ∧ (n : Int) ≤ 60) :=
  (C2_window_limits "u1" "k" 3 60 (by decide) 0 [1000, 2000, 3000]
    (by decide) 3 3000 (by decide) (RateLimiter.expectedResult 3 4 60000 3000)
    (by decide)).2 (by decide)

/-- C4: when the stored window for a scope key has lapsed
(`entry.resetTime ≤ now`), the next memory-backend call replaces it:
whatever the prior count, the stored entry becomes
`{count = 1, resetTime = now + windowSeconds·1000}`, and the result
reports `current = 1` with the fresh reset time. -/
theorem C4_window_replacement (store : RateLimiter.MemStore) (u k : String)
    (limit W now : Int) (e : RateLimiter.Entry)
    (h : mapGet store (u ++ ":" ++ k) = some e) (he : e.resetTime ≤ now) :
    (mapGet (RateLimiter.checkLimitMemory store u k limit W now).2 (u ++ ":" ++ k) =
      some ⟨1, now + W * 1000⟩) ∧
    ((RateLimiter.checkLimitMemory store u k limit W now).1.current = 1) ∧
    ((RateLimiter.checkLimitMemory store u k limit W now).1.resetTime = now + W * 1000) := by
  rw [RateLimiter.checkLimitMemory_expired store u k limit W now e h he]
  exact ⟨mapGet_mapSet_self _ _ _, rfl, rfl⟩

/-- C4 witness: a lapsed window with prior count 7 is replaced by a fresh
window with count 1 at the next call. -/
theorem C4_window_replacement_witness :
    (mapGet [("u1:k", (⟨7, 50⟩ : RateLimiter.Entry))] ("u1" ++ ":" ++ "k") =
      some ⟨7, 50⟩) ∧
    ((⟨7, 50⟩ : RateLimiter.Entry).resetTime ≤ 100) ∧
    ((mapGet (RateLimiter.checkLimitMemory [("u1:k", ⟨7, 50⟩)] "u1" "k" 3 60 100).2
        ("u1" ++ ":" ++ "k") = some ⟨1, 100 + 60 * 1000⟩) ∧
    ((RateLimiter.checkLimitMemory [("u1:k", ⟨7, 50⟩)] "u1" "k" 3 60 100).1.current = 1) ∧
    ((RateLimiter.checkLimitMemory [("u1:k", ⟨7, 50⟩)] "u1" "k" 3 60 100).1.resetTime =
      100 + 60 * 1000)) :=
  ⟨by decide, by decide,
   C4_window_replacement [("u1:k", ⟨7, 50⟩)] "u1" "k" 3 60 100 ⟨7, 50⟩
     (by decide) (by decide)⟩

/-- C3 (counterexample): `limit = 0` does not always reject.  The first
call after the previous window lapsed (stored entry `⟨5, 50⟩`, clock 100)
takes the reset branch and returns `allowed = true`; likewise the very
first call for a fresh scope key returns `allowed = true`. -/
theorem C3_counterexample :
    ((RateLimiter.checkLimitMemory [("u2:k", ⟨5, 50⟩)] "u2" "k" 0 60 100).1.allowed
        = true) ∧
    ((RateLimiter.checkLimitMemory [] "u2" "k" 0 60 100).1.allowed = true) := by
  decide

/-- C3 (amended): with `limit = 0`, a call that finds a live window
(stored entry with `now < resetTime`) is rejected, but the lazy-creation
first call for a fresh scope key and the first call after the previous
window lapsed both return `allowed = true` (the fresh/reset branches
return `allowed: true` unconditionally). -/
theorem C3_zero_limit_live_rejects (store : RateLimiter.MemStore) (u k : String)
    (W now : Int) (e : RateLimiter.Entry)
    (h : mapGet store (u ++ ":" ++ k) = some e) (hlive : now < e.resetTime) :
    ((RateLimiter.checkLimitMemory store u k 0 W now).1.allowed = false) ∧
    ((RateLimiter.checkLimitMemory [] "u3" "k" 0 60 0).1.allowed = true) ∧
    ((RateLimiter.checkLimitMemory [("u3:k", ⟨9, 10⟩)] "u3" "k" 0 60 10).1.allowed
        = true) := by
  refine ⟨?_, by decide, by decide⟩
  rw [RateLimiter.checkLimitMemory_live store u k 0 W now e h hlive]
  simp [RateLimiter.expectedResult]

/-- C3 witness: a live window with count 5 at `limit = 0` rejects. -/
theorem C3_zero_limit_live_rejects_witness :
    (mapGet [("u1:k", (⟨5, 60000⟩ : RateLimiter.Entry))] ("u1" ++ ":" ++ "k") =
      some ⟨5, 60000⟩) ∧
    ((0 : Int) < (⟨5, 60000⟩ : RateLimiter.Entry).resetTime) ∧
    (((RateLimiter.checkLimitMemory [("u1:k", ⟨5, 60000⟩)] "u1" "k" 0 60 0).1.allowed
        = false) ∧
    ((RateLimiter.checkLimitMemory [] "u3" "k" 0 60 0).1.allowed = true) ∧
    ((RateLimiter.checkLimitMemory [("u3:k", ⟨9, 10⟩)] "u3" "k" 0 60 10).1.allowed
        = true)) :=
  ⟨by decide, by decide,
   C3_zero_limit_live_rejects [("u1:k", ⟨5, 60000⟩)] "u1" "k" 60 0 ⟨5, 60000⟩
     (by decide) (by decide)⟩

/-- C5 (counterexample): `windowSeconds = 0` is not rejected at setup
time — there is no validation anywhere in `rateLimiter.js` or its
middleware callers.  The call proceeds and computes a decision: with
`limit = 1` and `windowSeconds = 0`, two successive calls at the same
instant are both allowed (the second finds the window already lapsed),
so the limit is silently not enforced rather than an error raised. -/
theorem C5_counterexample :
    ((RateLimiter.checkLimitMemory [] "u1" "k" 1 0 0).1.allowed = true) ∧
    ((RateLimiter.checkLimitMemory
        (RateLimiter.checkLimitMemory [] "u1" "k" 1 0 0).2 "u1" "k" 1 0 0).1.allowed
        = true) ∧
    ((RateLimiter.checkLimitMemory
        (RateLimiter.checkLimitMemory [] "u1" "k" 1 0 0).2 "u1" "k" 1 0 0).1.current
        = 1) := by
  decide

/-- C5 (amended): a caller-supplied `windowSeconds ≤ 0` is accepted
silently and misbehaves at call time: any call that finds a fresh or
already-lapsed scope key is allowed regardless of `limit`, and the window
it installs is lapsed on arrival (`resetTime = now + windowSeconds·1000 ≤
now`), so every subsequent call at any instant `now' ≥ now` is again
allowed — the limit is never enforced. -/
theorem C5_nonpositive_window_never_limits (store : RateLimiter.MemStore)
    (u k : String) (limit W now : Int) (hW : W ≤ 0)
    (h : mapGet store (u ++ ":" ++ k) = none ∨
      ∃ e, mapGet store (u ++ ":" ++ k) = some e ∧ e.resetTime ≤ now) :
    ((RateLimiter.checkLimitMemory store u k limit W now).1.allowed = true) ∧
    (∀ now', now ≤ now' →
      (RateLimiter.checkLimitMemory
        (RateLimiter.checkLimitMemory store u k limit W now).2
        u k limit W now').1.allowed = true) := by
  have hstep :
      RateLimiter.checkLimitMemory store u k limit W now =
        (⟨true, limit - 1, now + W * 1000, 1, limit, none⟩,
         mapSet store (u ++ ":" ++ k) ⟨1, now + W * 1000⟩) := by
    rcases h with h | ⟨e, h, he⟩
    · exact RateLimiter.checkLimitMemory_fresh store u k limit W now h
    · exact RateLimiter.checkLimitMemory_expired store u k limit W now e h he
  rw [hstep]
  refine ⟨rfl, ?_⟩
  intro now' hnow'
  have hget : mapGet (mapSet store (u ++ ":" ++ k) ⟨1, now + W * 1000⟩)
      (u ++ ":" ++ k) = some ⟨1, now + W * 1000⟩ := mapGet_mapSet_self _ _ _
  have hexp : (RateLimiter.Entry.mk 1 (now + W * 1000)).resetTime ≤ now' := by
    simp
    nlinarith
  rw [RateLimiter.checkLimitMemory_expired _ u k limit W now' _ hget hexp]

/-- C5 witness: `windowSeconds = -5` on a fresh key — the call and every
later call are allowed. -/
theorem C5_nonpositive_window_never_limits_witness :
    ((-5 : Int) ≤ 0) ∧
    ((RateLimiter.checkLimitMemory [] "u1" "k" 1 (-5) 0).1.allowed = true) ∧
    ((RateLimiter.checkLimitMemory
        (RateLimiter.checkLimitMemory [] "u1" "k" 1 (-5) 0).2
        "u1" "k" 1 (-5) 5).1.allowed = true) :=
  ⟨by decide,
   (C5_nonpositive_window_never_limits [] "u1" "k" 1 (-5) 0 (by decide)
      (Or.inl (by decide))).1,
   (C5_nonpositive_window_never_limits [] "u1" "k" 1 (-5) 0 (by decide)
      (Or.inl (by decide))).2 5 (by decide)⟩

/-- C9 (counterexample): a single Shared-backend failure can permanently
disable the Shared backend.  When the one-time `initialize` connection
attempt fails during the first `checkLimit` call, the driver is switched
to memory for good: the next call ignores a healthy Redis attempt
(`success 5 30`) — its outcome equals the outcome with a failing attempt
and is answered by the local store (`current = 2`, not the shared count
5), so subsequent calls do not independently attempt Shared again. -/
theorem C9_counterexample :
    ((RateLimiter.checkLimit ⟨RateLimiter.Driver.redis, false, []⟩ false
        RateLimiter.RedisAttempt.failure "u1" "k" 3 60 0).2.driver =
      RateLimiter.Driver.memory) ∧
    (RateLimiter.checkLimit
        (RateLimiter.checkLimit ⟨RateLimiter.Driver.redis, false, []⟩ false
          RateLimiter.RedisAttempt.failure "u1" "k" 3 60 0).2
        true (RateLimiter.RedisAttempt.success 5 30) "u1" "k" 3 60 1000 =
      RateLimiter.checkLimit
        (RateLimiter.checkLimit ⟨RateLimiter.Driver.redis, false, []⟩ false
          RateLimiter.RedisAttempt.failure "u1" "k" 3 60 0).2
        true RateLimiter.RedisAttempt.failure "u1" "k" 3 60 1000) ∧
    ((RateLimiter.checkLimit
        (RateLimiter.checkLimit ⟨RateLimiter.Driver.redis, false, []⟩ false
          RateLimiter.RedisAttempt.failure "u1" "k" 3 60 0).2
        true (RateLimiter.RedisAttempt.success 5 30) "u1" "k" 3 60 1000).1.current
      = 2) := by
  decide

/-- C9 (amended): once initialization has succeeded, the fallback is
fail-soft per call: a `checkLimit` call whose Shared attempt fails
(client unavailable, or pipeline/command error thrown) is answered by the
memory backend on the local store — no storage error reaches the caller,
the embedded `checkLimit` being total — the driver stays `redis`, and the
next call with a successful attempt is answered by the shared counter.
(If instead the initial connection of the first call fails, the driver is
permanently switched to memory and Shared is never attempted again.) -/
theorem C9_fail_soft_per_call (st : RateLimiter.RLState) (ok ok' : Bool)
    (att : RateLimiter.RedisAttempt) (u k : String) (limit W now : Int)
    (hinit : st.initialized = true)
    (hdrv : st.driver = RateLimiter.Driver.redis)
    (hfail : att = RateLimiter.RedisAttempt.unavailable ∨
      att = RateLimiter.RedisAttempt.failure) :
    ((RateLimiter.checkLimit st ok att u k limit W now).1 =
      (RateLimiter.checkLimitMemory st.memoryStore u k limit W now).1) ∧
    ((RateLimiter.checkLimit st ok att u k limit W now).2.driver =
      RateLimiter.Driver.redis) ∧
    (∀ count ttl now',
      (RateLimiter.checkLimit (RateLimiter.checkLimit st ok att u k limit W now).2
        ok' (RateLimiter.RedisAttempt.success count ttl) u k limit W now').1 =
      RateLimiter.redisResult limit W now' count ttl) := by
  have hini : RateLimiter.initDriver st ok = st := by
    simp [RateLimiter.initDriver, hinit]
  rcases hfail with rfl | rfl <;>
    refine ⟨?_, ?_, ?_⟩ <;>
      simp [RateLimiter.checkLimit, RateLimiter.initDriver, hinit, hdrv,
        RateLimiter.checkLimitRedis]

/-- C9 witness: an initialized redis-driver limiter; a call with a thrown
Redis error falls back to memory, keeps the driver, and the following
call with `success 5 30` is answered by the shared counter. -/
theorem C9_fail_soft_per_call_witness :
    ((RateLimiter.checkLimit ⟨RateLimiter.Driver.redis, true, []⟩ true
        RateLimiter.RedisAttempt.failure "u1" "k" 3 60 0).1 =
      (RateLimiter.checkLimitMemory [] "u1" "k" 3 60 0).1) ∧
    ((RateLimiter.checkLimit ⟨RateLimiter.Driver.redis, true, []⟩ true
        RateLimiter.RedisAttempt.failure "u1" "k" 3 60 0).2.driver =
      RateLimiter.Driver.redis) ∧
    ((RateLimiter.checkLimit
        (RateLimiter.checkLimit ⟨RateLimiter.Driver.redis, true, []⟩ true
          RateLimiter.RedisAttempt.failure "u1" "k" 3 60 0).2
        true (RateLimiter.RedisAttempt.success 5 30) "u1" "k" 3 60 1000).1 =
      RateLimiter.redisResult 3 60 1000 5 30) :=
  ⟨(C9_fail_soft_per_call ⟨RateLimiter.Driver.redis, true, []⟩ true true
      RateLimiter.RedisAttempt.failure "u1" "k" 3 60 0 rfl rfl (Or.inr rfl)).1,
   (C9_fail_soft_per_call ⟨RateLimiter.Driver.redis, true, []⟩ true true
      RateLimiter.RedisAttempt.failure "u1" "k" 3 60 0 rfl rfl (Or.inr rfl)).2.1,
   (C9_fail_soft_per_call ⟨RateLimiter.Driver.redis, true, []⟩ true true
      RateLimiter.RedisAttempt.failure "u1" "k" 3 60 0 rfl rfl (Or.inr rfl)).2.2
     5 30 1000⟩

/-! ## UserQuotaService (src/services/userQuota.js)

Embedding of the quota service.  The external Redis is modelled as a pure
key-value state (`kv` for the stored integers, `ttl` for expiries set by
`EXPIRE`); the constructor's in-memory fallback is the `quotaCache`
association list.  `new Date()` is abstracted to the calendar components
the key strings use (`getFullYear()`, `getMonth() + 1`, `getDate()`). -/

/-- State of the external Redis used for quota storage. -/
structure QuotaRedis where
  kv : List (String × Int)
  ttl : List (String × Int)
deriving Repr, DecidableEq

/-- The `UserQuotaService` instance fields: `enabled`
(`USER_QUOTA_ENABLED === 'true'`), the MB limits, the Redis client when
available, and the in-memory fallback cache. -/
structure UserQuotaService where
  enabled : Bool
  dailyLimit : Int
  monthlyLimit : Int
  redis : Option QuotaRedis
  quotaCache : List (String × Int)
deriving Repr, DecidableEq

/-- The calendar components of `new Date()` used to build bucket keys
(month already shifted to 1..12 as in `getMonth() + 1`). -/
structure QDate where
  year : Nat
  month : Nat
  day : Nat
deriving Repr, DecidableEq

/-- `String(n).padStart(2, '0')`. -/
def pad2 (n : Nat) : String :=
  if n < 10 then "0" ++ toString n else toString n

/-- The daily bucket key `quota:${userId}:${YYYY}-${MM}-${DD}`. -/
def dailyKey (userId : String) (d : QDate) : String :=
  "quota:" ++ userId ++ ":" ++ toString d.year ++ "-" ++ pad2 d.month
    ++ "-" ++ pad2 d.day

/-- The monthly bucket key `quota:${userId}:${YYYY}-${MM}`. -/
def monthlyKey (userId : String) (d : QDate) : String :=
  "quota:" ++ userId ++ ":" ++ toString d.year ++ "-" ++ pad2 d.month

/-- `Math.ceil(fileSizeBytes / (1024 * 1024))`. -/
def mbOf (bytes : Nat) : Nat :=
  (bytes + (1024 * 1024 - 1)) / (1024 * 1024)

/-- `getUsage`'s result `{dailyUsage, monthlyUsage}` (whole MB). -/
structure Usage where
  dailyUsage : Int
  monthlyUsage : Int
deriving Repr, DecidableEq

/-- The `usage` object `checkQuota` attaches to its result. -/
structure UsageView where
  dailyUsage : Int
  monthlyUsage : Int
  dailyRemaining : Int
  monthlyRemaining : Int
deriving Repr, DecidableEq

/-- `checkQuota`'s result `{allowed, reason?, usage?}`. -/
structure QuotaCheck where
  allowed : Bool
  reason : Option String
  usage : Option UsageView
deriving Repr, DecidableEq

namespace UserQuotaService

/-- `getUsage(userId)` (lines 135-161): reads the two buckets for today's
keys — `GET` on Redis (`parseInt(x) || 0`), or the cache's values — and
mutates nothing. -/
def getUsage (s : UserQuotaService) (userId : String) (d : QDate) : Usage :=
  match s.redis with
  | some r =>
      ⟨(mapGet r.kv (dailyKey userId d)).getD 0,
       (mapGet r.kv (monthlyKey userId d)).getD 0⟩
  | none =>
      ⟨(mapGet s.quotaCache (dailyKey userId d)).getD 0,
       (mapGet s.quotaCache (monthlyKey userId d)).getD 0⟩

/-- The rejection message `Daily upload limit exceeded (${limit}MB)`. -/
def dailyReason (limit : Int) : String :=
  "Daily upload limit exceeded (" ++ toString limit ++ "MB)"

/-- The rejection message `Monthly upload limit exceeded (${limit}MB)`. -/
def monthlyReason (limit : Int) : String :=
  "Monthly upload limit exceeded (" ++ toString limit ++ "MB)"

/-- `checkQuota(userId, fileSizeBytes)` (lines 29-79): disabled service →
`{allowed: true}`; otherwise a non-mutating peek at both buckets, checking
the daily then the monthly ceiling.  Returned together with the (never
modified) service state. -/
def checkQuota (s : UserQuotaService) (userId : String) (fileSizeBytes : Nat)
    (d : QDate) : QuotaCheck × UserQuotaService :=
  if s.enabled = false then (⟨true, none, none⟩, s)
  else
    let fileSizeMB : Int := mbOf fileSizeBytes
    let usage := getUsage s userId d
    if usage.dailyUsage + fileSizeMB > s.dailyLimit then
      (⟨false, some (dailyReason s.dailyLimit),
        some ⟨usage.dailyUsage, usage.monthlyUsage,
          max 0 (s.dailyLimit - usage.dailyUsage),
          max 0 (s.monthlyLimit - usage.monthlyUsage)⟩⟩, s)
    else if usage.monthlyUsage + fileSizeMB > s.monthlyLimit then
      (⟨false, some (monthlyReason s.monthlyLimit),
        some ⟨usage.dailyUsage, usage.monthlyUsage,
          max 0 (s.dailyLimit - usage.dailyUsage),
          max 0 (s.monthlyLimit - usage.monthlyUsage)⟩⟩, s)
    else
      (⟨true, none,
        some ⟨usage.dailyUsage, usage.monthlyUsage,
          s.dailyLimit - usage.dailyUsage - fileSizeMB,
          s.monthlyLimit - usage.monthlyUsage - fileSizeMB⟩⟩, s)

/-- `recordUsage(userId, fileSizeBytes)` (lines 86-128): disabled service
→ no-op; Redis present → pipelined `INCRBY`+`EXPIRE` on both bucket keys;
otherwise the in-memory cache is bumped, followed by the size-10000
cleanup that drops the first 1000 insertion-ordered keys. -/
def recordUsage (s : UserQuotaService) (userId : String) (fileSizeBytes : Nat)
    (d : QDate) : UserQuotaService :=
  if s.enabled = false then s
  else
    let fileSizeMB : Int := mbOf fileSizeBytes
    let dk := dailyKey userId d
    let mk := monthlyKey userId d
    match s.redis with
    | some r =>
        let kv1 := mapSet r.kv dk ((mapGet r.kv dk).getD 0 + fileSizeMB)
        let ttl1 := mapSet r.ttl dk (86400 * 2)
        let kv2 := mapSet kv1 mk ((mapGet kv1 mk).getD 0 + fileSizeMB)
        let ttl2 := mapSet ttl1 mk (86400 * 32)
        { s with redis := some ⟨kv2, ttl2⟩ }
    | none =>
        let currentDaily := (mapGet s.quotaCache dk).getD 0
        let currentMonthly := (mapGet s.quotaCache mk).getD 0
        let cache1 := mapSet s.quotaCache dk (currentDaily + fileSizeMB)
        let cache2 := mapSet cache1 mk (currentMonthly + fileSizeMB)
        if cache2.length > 10000 then
          let oldEntries := (cache2.map Prod.fst).take 1000
          { s with quotaCache := oldEntries.foldl mapDelete cache2 }
        else
          { s with quotaCache := cache2 }

end UserQuotaService

theorem dailyKey_eq (u : String) (d : QDate) :
    dailyKey u d = monthlyKey u d ++ "-" ++ pad2 d.day := rfl

theorem monthlyKey_ne_dailyKey (u : String) (d : QDate) :
    monthlyKey u d ≠ dailyKey u d := by
  intro h
  have hl := congrArg String.length h
  rw [dailyKey_eq, String.length_append, String.length_append] at hl
  have : ("-" : String).length = 1 := rfl
  omega

theorem dailyReason_ne_monthlyReason (a b : Int) :
    UserQuotaService.dailyReason a ≠ UserQuotaService.monthlyReason b := by
  intro h
  have hd := congrArg String.data h
  rw [UserQuotaService.dailyReason, UserQuotaService.monthlyReason] at hd
  rw [String.data_append, String.data_append, String.data_append,
    String.data_append] at hd
  have h1 : ("Daily upload limit exceeded (" : String).data =
      'D' :: ("aily upload limit exceeded (" : String).data := rfl
  have h2 : ("Monthly upload limit exceeded (" : String).data =
      'M' :: ("onthly upload limit exceeded (" : String).data := rfl
  rw [h1, h2] at hd
  simp at hd

/-- A concrete date for scenario runs. -/
def quotaDate0 : QDate := ⟨2025, 1, 15⟩

/-- 10000 filler cache entries whose keys (runs of `d`) differ from every
quota bucket key. -/
def dummyEntries : List (String × Int) :=
  (List.range 10000).map fun i => (String.mk (List.replicate (i + 1) 'd'), 1)

/-- A quota cache just over the cleanup threshold: prior daily and monthly
totals of 5 MB for user u1, then 10000 filler entries. -/
def bigCache : List (String × Int) :=
  (dailyKey "u1" quotaDate0, 5) :: (monthlyKey "u1" quotaDate0, 5) :: dummyEntries

/-- An enabled quota service (memory fallback) carrying `bigCache`. -/
def bigService : UserQuotaService := ⟨true, 100, 1000, none, bigCache⟩

/-- C6: `checkQuota` never mutates stored usage: the service state it
returns is the one it was given (both buckets included), so an
immediately repeated call returns the identical result, and the usage
figures read after the call equal those before. -/
theorem C6_checkQuota_pure (s : UserQuotaService) (u : String) (b : Nat)
    (d : QDate) :
    ((UserQuotaService.checkQuota s u b d).2 = s) ∧
    ((UserQuotaService.checkQuota
        (UserQuotaService.checkQuota s u b d).2 u b d).1 =
      (UserQuotaService.checkQuota s u b d).1) ∧
    (UserQuotaService.getUsage (UserQuotaService.checkQuota s u b d).2 u d =
      UserQuotaService.getUsage s u d) := by
  have h2 : (UserQuotaService.checkQuota s u b d).2 = s := by
    rw [UserQuotaService.checkQuota]
    split
    · rfl
    · dsimp only
      split
      · rfl
      · split <;> rfl
  exact ⟨h2, by rw [h2], by rw [h2]⟩

/-- C10: a quota service constructed disabled answers `checkQuota` with
exactly `{allowed: true}` — no reason and no usage fields — without
touching the state, and `recordUsage` returns with no change to any
stored usage. -/
theorem C10_disabled_noop (s : UserQuotaService) (u : String) (b : Nat)
    (d : QDate) (hdis : s.enabled = false) :
    (UserQuotaService.checkQuota s u b d =
      (⟨true, none, none⟩, s)) ∧
    (UserQuotaService.recordUsage s u b d = s) := by
  constructor
  · rw [UserQuotaService.checkQuota, if_pos hdis]
  · rw [UserQuotaService.recordUsage, if_pos hdis]

/-- C10 witness: a disabled service with stored usage keeps it unchanged
and answers the bare `{allowed: true}`. -/
theorem C10_disabled_noop_witness :
    ((UserQuotaService.mk false 100 1000 none [("k", 5)]).enabled = false) ∧
    ((UserQuotaService.checkQuota
        (UserQuotaService.mk false 100 1000 none [("k", 5)]) "u1" 50000000
        quotaDate0 =
      (⟨true, none, none⟩, UserQuotaService.mk false 100 1000 none [("k", 5)])) ∧
    (UserQuotaService.recordUsage
        (UserQuotaService.mk false 100 1000 none [("k", 5)]) "u1" 50000000
        quotaDate0 =
      UserQuotaService.mk false 100 1000 none [("k", 5)])) :=
  ⟨rfl,
   C10_disabled_noop (UserQuotaService.mk false 100 1000 none [("k", 5)])
     "u1" 50000000 quotaDate0 rfl⟩

/-- C8: for an enabled service, `checkQuota` rejects with the daily-limit
reason exactly when the current daily usage plus `ceil(bytes / 2^20)`
(the `mbOf` conversion) exceeds the daily ceiling.  Concretely, with
dailyLimit 100 MB and empty usage: 50,000,000 bytes round up to 48 MB and
are allowed; after recording them, 60,000,000 bytes round up to 58 MB
(total 106 MB) and are rejected citing the daily limit. -/
theorem C8_daily_rejection (s : UserQuotaService) (u : String) (b : Nat)
    (d : QDate) (hen : s.enabled = true) :
    ((((UserQuotaService.checkQuota s u b d).1.allowed = false) ∧
      ((UserQuotaService.checkQuota s u b d).1.reason =
        some (UserQuotaService.dailyReason s.dailyLimit))) ↔
      s.dailyLimit <
        (UserQuotaService.getUsage s u d).dailyUsage + (mbOf b : Int)) ∧
    (mbOf 50000000 = 48) ∧
    (mbOf 60000000 = 58) ∧
    ((UserQuotaService.checkQuota ⟨true, 100, 1000, none, []⟩ "u1" 50000000
        quotaDate0).1.allowed = true) ∧
    ((UserQuotaService.checkQuota
        (UserQuotaService.recordUsage ⟨true, 100, 1000, none, []⟩ "u1"
          50000000 quotaDate0)
        "u1" 60000000 quotaDate0).1.allowed = false) ∧
    ((UserQuotaService.checkQuota
        (UserQuotaService.recordUsage ⟨true, 100, 1000, none, []⟩ "u1"
          50000000 quotaDate0)
        "u1" 60000000 quotaDate0).1.reason =
      some (UserQuotaService.dailyReason 100)) := by
  refine ⟨?_, by decide, by decide, by decide, by decide, by decide⟩
  have hne : ¬ (s.enabled = false) := by simp [hen]
  rw [UserQuotaService.checkQuota, if_neg hne]
  dsimp only
  by_cases hday :
      (UserQuotaService.getUsage s u d).dailyUsage + ((mbOf b : Nat) : Int) >
        s.dailyLimit
  · rw [if_pos hday]
    simpa using hday
  · rw [if_neg hday]
    by_cases hmon :
        (UserQuotaService.getUsage s u d).monthlyUsage + ((mbOf b : Nat) : Int) >
          s.monthlyLimit
    · rw [if_pos hmon]
      constructor
      · rintro ⟨-, hr⟩
        injection hr with hr
        exact absurd hr.symm (dailyReason_ne_monthlyReason _ _)
      · intro h
        exact absurd h hday
    · rw [if_neg hmon]
      constructor
      · rintro ⟨h, -⟩
        cases h
      · intro h
        exact absurd h hday

/-- C8 witness: the daily-limit characterization instantiated at the
48 MB-used service checking a 58 MB upload. -/
theorem C8_daily_rejection_witness :
    ((((UserQuotaService.checkQuota
          (UserQuotaService.mk true 100 1000 none
            [(dailyKey "u1" quotaDate0, 48), (monthlyKey "u1" quotaDate0, 48)])
          "u1" 60000000 quotaDate0).1.allowed = false) ∧
      ((UserQuotaService.checkQuota
          (UserQuotaService.mk true 100 1000 none
            [(dailyKey "u1" quotaDate0, 48), (monthlyKey "u1" quotaDate0, 48)])
          "u1" 60000000 quotaDate0).1.reason =
        some (UserQuotaService.dailyReason
          (UserQuotaService.mk true 100 1000 none
            [(dailyKey "u1" quotaDate0, 48),
             (monthlyKey "u1" quotaDate0, 48)]).dailyLimit))) ↔
      (UserQuotaService.mk true 100 1000 none
          [(dailyKey "u1" quotaDate0, 48),
           (monthlyKey "u1" quotaDate0, 48)]).dailyLimit <
        (UserQuotaService.getUsage
          (UserQuotaService.mk true 100 1000 none
            [(dailyKey "u1" quotaDate0, 48), (monthlyKey "u1" quotaDate0, 48)])
          "u1" quotaDate0).dailyUsage + (mbOf 60000000 : Int)) ∧
    (mbOf 50000000 = 48) ∧
    (mbOf 60000000 = 58) ∧
    ((UserQuotaService.checkQuota ⟨true, 100, 1000, none, []⟩ "u1" 50000000
        quotaDate0).1.allowed = true) ∧
    ((UserQuotaService.checkQuota
        (UserQuotaService.recordUsage ⟨true, 100, 1000, none, []⟩ "u1"
          50000000 quotaDate0)
        "u1" 60000000 quotaDate0).1.allowed = false) ∧
    ((UserQuotaService.checkQuota
        (UserQuotaService.recordUsage ⟨true, 100, 1000, none, []⟩ "u1"
          50000000 quotaDate0)
        "u1" 60000000 quotaDate0).1.reason =
      some (UserQuotaService.dailyReason 100)) :=
  C8_daily_rejection
    (UserQuotaService.mk true 100 1000 none
      [(dailyKey "u1" quotaDate0, 48), (monthlyKey "u1" quotaDate0, 48)])
    "u1" 60000000 quotaDate0 rfl

theorem length_mapSet_le {β : Type} (l : List (String × β)) (k : String) (v : β) :
    (mapSet l k v).length ≤ l.length + 1 := by
  cases hm : mapGet l k with
  | none => rw [length_mapSet_of_none l k v hm]
  | some w => rw [length_mapSet_of_some l k v w hm]; omega

/-- `recordUsage` on an enabled memory-fallback service whose updated
cache stays within the cleanup threshold: the two buckets are bumped and
nothing else happens. -/
theorem recordUsage_memory_eq (dl ml : Int) (c : List (String × Int))
    (u : String) (x : Nat) (d : QDate)
    (hno : ¬ ((mapSet (mapSet c (dailyKey u d)
        ((mapGet c (dailyKey u d)).getD 0 + (mbOf x : Int)))
        (monthlyKey u d)
        ((mapGet c (monthlyKey u d)).getD 0 + (mbOf x : Int))).length
        > 10000)) :
    UserQuotaService.recordUsage ⟨true, dl, ml, none, c⟩ u x d =
      ⟨true, dl, ml, none,
        mapSet (mapSet c (dailyKey u d)
          ((mapGet c (dailyKey u d)).getD 0 + (mbOf x : Int)))
          (monthlyKey u d)
          ((mapGet c (monthlyKey u d)).getD 0 + (mbOf x : Int))⟩ := by
  rw [UserQuotaService.recordUsage]
  dsimp only
  rw [if_neg hno]
  simp

/-- `recordUsage` on an enabled Redis-backed service: pipelined
`INCRBY`+`EXPIRE` on both bucket keys. -/
theorem recordUsage_redis_eq (dl ml : Int) (kv tl c : List (String × Int))
    (u : String) (x : Nat) (d : QDate) :
    UserQuotaService.recordUsage ⟨true, dl, ml, some ⟨kv, tl⟩, c⟩ u x d =
      ⟨true, dl, ml,
        some ⟨mapSet (mapSet kv (dailyKey u d)
            ((mapGet kv (dailyKey u d)).getD 0 + (mbOf x : Int)))
          (monthlyKey u d)
          ((mapGet (mapSet kv (dailyKey u d)
              ((mapGet kv (dailyKey u d)).getD 0 + (mbOf x : Int)))
            (monthlyKey u d)).getD 0 + (mbOf x : Int)),
        mapSet (mapSet tl (dailyKey u d) (86400 * 2)) (monthlyKey u d)
          (86400 * 32)⟩, c⟩ := by
  rw [UserQuotaService.recordUsage]
  dsimp only
  simp

/-- Two consecutive `recordUsage` calls on the memory fallback, starting
within the cleanup threshold: both bucket totals grow by the two rounded
amounts. -/
theorem getUsage_record_record_memory (c : List (String × Int)) (u : String)
    (x y : Nat) (d : QDate) (dl ml : Int) (hlen : c.length + 2 ≤ 10000) :
    (UserQuotaService.getUsage
      (UserQuotaService.recordUsage
        (UserQuotaService.recordUsage ⟨true, dl, ml, none, c⟩ u x d) u y d)
      u d).dailyUsage =
      (mapGet c (dailyKey u d)).getD 0 + (mbOf x : Int) + (mbOf y : Int) ∧
    (UserQuotaService.getUsage
      (UserQuotaService.recordUsage
        (UserQuotaService.recordUsage ⟨true, dl, ml, none, c⟩ u x d) u y d)
      u d).monthlyUsage =
      (mapGet c (monthlyKey u d)).getD 0 + (mbOf x : Int) + (mbOf y : Int) := by
  have hne : monthlyKey u d ≠ dailyKey u d := monthlyKey_ne_dailyKey u d
  have ha := length_mapSet_le c (dailyKey u d)
    ((mapGet c (dailyKey u d)).getD 0 + (mbOf x : Int))
  have hb := length_mapSet_le (mapSet c (dailyKey u d)
    ((mapGet c (dailyKey u d)).getD 0 + (mbOf x : Int))) (monthlyKey u d)
    ((mapGet c (monthlyKey u d)).getD 0 + (mbOf x : Int))
  rw [recordUsage_memory_eq dl ml c u x d (by omega)]
  set c1 := mapSet (mapSet c (dailyKey u d)
    ((mapGet c (dailyKey u d)).getD 0 + (mbOf x : Int)))
    (monthlyKey u d)
    ((mapGet c (monthlyKey u d)).getD 0 + (mbOf x : Int)) with hc1
  have hgd1 : mapGet c1 (dailyKey u d) =
      some ((mapGet c (dailyKey u d)).getD 0 + (mbOf x : Int)) := by
    rw [hc1, mapGet_mapSet_ne _ _ _ _ hne, mapGet_mapSet_self]
  have hgm1 : mapGet c1 (monthlyKey u d) =
      some ((mapGet c (monthlyKey u d)).getD 0 + (mbOf x : Int)) := by
    rw [hc1, mapGet_mapSet_self]
  have hq : mapGet (mapSet c1 (dailyKey u d)
      ((mapGet c1 (dailyKey u d)).getD 0 + (mbOf y : Int))) (monthlyKey u d) =
      some ((mapGet c (monthlyKey u d)).getD 0 + (mbOf x : Int)) := by
    rw [mapGet_mapSet_ne _ _ _ _ (Ne.symm hne)]
    exact hgm1
  have hlen2 : ¬ ((mapSet (mapSet c1 (dailyKey u d)
      ((mapGet c1 (dailyKey u d)).getD 0 + (mbOf y : Int)))
      (monthlyKey u d)
      ((mapGet c1 (monthlyKey u d)).getD 0 + (mbOf y : Int))).length > 10000) := by
    rw [length_mapSet_of_some _ _ _ _ hq, length_mapSet_of_some _ _ _ _ hgd1]
    omega
  rw [recordUsage_memory_eq dl ml c1 u y d hlen2]
  constructor
  · show (mapGet (mapSet (mapSet c1 (dailyKey u d) _) (monthlyKey u d) _)
      (dailyKey u d)).getD 0 = _
    rw [mapGet_mapSet_ne _ _ _ _ hne, mapGet_mapSet_self, hgd1]
    simp
  · show (mapGet (mapSet (mapSet c1 (dailyKey u d) _) (monthlyKey u d) _)
      (monthlyKey u d)).getD 0 = _
    rw [mapGet_mapSet_self, hgm1]
    simp

/-- Two consecutive `recordUsage` calls against the shared Redis store:
both bucket values grow by the two rounded amounts (INCRBY is additive;
no cleanup exists on this path). -/
theorem getUsage_record_record_redis (kv tl c : List (String × Int))
    (u : String) (x y : Nat) (d : QDate) (dl ml : Int) :
    (UserQuotaService.getUsage
      (UserQuotaService.recordUsage
        (UserQuotaService.recordUsage ⟨true, dl, ml, some ⟨kv, tl⟩, c⟩ u x d)
        u y d) u d).dailyUsage =
      (mapGet kv (dailyKey u d)).getD 0 + (mbOf x : Int) + (mbOf y : Int) ∧
    (UserQuotaService.getUsage
      (UserQuotaService.recordUsage
        (UserQuotaService.recordUsage ⟨true, dl, ml, some ⟨kv, tl⟩, c⟩ u x d)
        u y d) u d).monthlyUsage =
      (mapGet kv (monthlyKey u d)).getD 0 + (mbOf x : Int) + (mbOf y : Int) := by
  have hne : monthlyKey u d ≠ dailyKey u d := monthlyKey_ne_dailyKey u d
  rw [recordUsage_redis_eq dl ml kv tl c u x d]
  set kv1 := mapSet (mapSet kv (dailyKey u d)
    ((mapGet kv (dailyKey u d)).getD 0 + (mbOf x : Int)))
    (monthlyKey u d)
    ((mapGet (mapSet kv (dailyKey u d)
        ((mapGet kv (dailyKey u d)).getD 0 + (mbOf x : Int)))
      (monthlyKey u d)).getD 0 + (mbOf x : Int)) with hkv1
  have hgd1 : mapGet kv1 (dailyKey u d) =
      some ((mapGet kv (dailyKey u d)).getD 0 + (mbOf x : Int)) := by
    rw [hkv1, mapGet_mapSet_ne _ _ _ _ hne, mapGet_mapSet_self]
  have hgm1 : mapGet kv1 (monthlyKey u d) =
      some ((mapGet kv (monthlyKey u d)).getD 0 + (mbOf x : Int)) := by
    rw [hkv1, mapGet_mapSet_self, mapGet_mapSet_ne _ _ _ _ (Ne.symm hne)]
  rw [recordUsage_redis_eq dl ml kv1 _ c u y d]
  constructor
  · show (mapGet (mapSet (mapSet kv1 (dailyKey u d) _) (monthlyKey u d) _)
      (dailyKey u d)).getD 0 = _
    rw [mapGet_mapSet_ne _ _ _ _ hne, mapGet_mapSet_self, hgd1]
    simp
  · show (mapGet (mapSet (mapSet kv1 (dailyKey u d) _) (monthlyKey u d) _)
      (monthlyKey u d)).getD 0 = _
    rw [mapGet_mapSet_self, mapGet_mapSet_ne _ _ _ _ (Ne.symm hne), hgm1]
    simp

/-- C7 (amended): for an enabled service whose in-memory cache is at
least two entries below the 10000-entry cleanup threshold (trivially met
on the Redis path, which has no cleanup), `recordUsage` is additive and
commutative in effect: recording byte amounts A then B on the same
calendar day leaves both stored buckets at the prior total plus
`ceil(A/2^20) + ceil(B/2^20)`, the same as recording B then A.  The
threshold hypothesis is forced by the counterexample: past it the cleanup
deletes the first 1000 insertion-ordered cache keys, the buckets
included. -/
theorem C7_record_additive_commutative (s : UserQuotaService) (u : String)
    (A B : Nat) (d : QDate) (hen : s.enabled = true)
    (hsize : s.quotaCache.length + 2 ≤ 10000) :
    ((UserQuotaService.getUsage (UserQuotaService.recordUsage
        (UserQuotaService.recordUsage s u A d) u B d) u d).dailyUsage =
      (UserQuotaService.getUsage s u d).dailyUsage +
        (mbOf A : Int) + (mbOf B : Int)) ∧
    ((UserQuotaService.getUsage (UserQuotaService.recordUsage
        (UserQuotaService.recordUsage s u A d) u B d) u d).monthlyUsage =
      (UserQuotaService.getUsage s u d).monthlyUsage +
        (mbOf A : Int) + (mbOf B : Int)) ∧
    ((UserQuotaService.getUsage (UserQuotaService.recordUsage
        (UserQuotaService.recordUsage s u B d) u A d) u d).dailyUsage =
      (UserQuotaService.getUsage (UserQuotaService.recordUsage
        (UserQuotaService.recordUsage s u A d) u B d) u d).dailyUsage) ∧
    ((UserQuotaService.getUsage (UserQuotaService.recordUsage
        (UserQuotaService.recordUsage s u B d) u A d) u d).monthlyUsage =
      (UserQuotaService.getUsage (UserQuotaService.recordUsage
        (UserQuotaService.recordUsage s u A d) u B d) u d).monthlyUsage) := by
  obtain ⟨en, dl, ml, rd, c⟩ := s
  dsimp only at hen hsize
  subst hen
  rcases rd with _ | ⟨kv, tl⟩
  · have h1 := getUsage_record_record_memory c u A B d dl ml hsize
    have h2 := getUsage_record_record_memory c u B A d dl ml hsize
    have hud : (UserQuotaService.getUsage ⟨true, dl, ml, none, c⟩ u d).dailyUsage
        = (mapGet c (dailyKey u d)).getD 0 := rfl
    have hum : (UserQuotaService.getUsage ⟨true, dl, ml, none, c⟩ u d).monthlyUsage
        = (mapGet c (monthlyKey u d)).getD 0 := rfl
    rw [h1.1, h1.2, h2.1, h2.2, hud, hum]
    omega
  · have h1 := getUsage_record_record_redis kv tl c u A B d dl ml
    have h2 := getUsage_record_record_redis kv tl c u B A d dl ml
    have hud : (UserQuotaService.getUsage ⟨true, dl, ml, some ⟨kv, tl⟩, c⟩ u d).dailyUsage
        = (mapGet kv (dailyKey u d)).getD 0 := rfl
    have hum : (UserQuotaService.getUsage ⟨true, dl, ml, some ⟨kv, tl⟩, c⟩ u d).monthlyUsage
        = (mapGet kv (monthlyKey u d)).getD 0 := rfl
    rw [h1.1, h1.2, h2.1, h2.2, hud, hum]
    omega

/-- C7 witness: an empty enabled memory-fallback service; recording 1 MB
then 5 MB in either order leaves both buckets at 6 MB. -/
theorem C7_record_additive_commutative_witness :
    ((UserQuotaService.mk true 100 1000 none []).enabled = true) ∧
    ((UserQuotaService.mk true 100 1000 none []).quotaCache.length + 2 ≤ 10000) ∧
    (((UserQuotaService.getUsage (UserQuotaService.recordUsage
        (UserQuotaService.recordUsage (UserQuotaService.mk true 100 1000 none [])
          "u1" 1048576 quotaDate0) "u1" 5242880 quotaDate0) "u1"
        quotaDate0).dailyUsage =
      (UserQuotaService.getUsage (UserQuotaService.mk true 100 1000 none [])
        "u1" quotaDate0).dailyUsage + (mbOf 1048576 : Int) + (mbOf 5242880 : Int)) ∧
    ((UserQuotaService.getUsage (UserQuotaService.recordUsage
        (UserQuotaService.recordUsage (UserQuotaService.mk true 100 1000 none [])
          "u1" 1048576 quotaDate0) "u1" 5242880 quotaDate0) "u1"
        quotaDate0).monthlyUsage =
      (UserQuotaService.getUsage (UserQuotaService.mk true 100 1000 none [])
        "u1" quotaDate0).monthlyUsage + (mbOf 1048576 : Int) + (mbOf 5242880 : Int)) ∧
    ((UserQuotaService.getUsage (UserQuotaService.recordUsage
        (UserQuotaService.recordUsage (UserQuotaService.mk true 100 1000 none [])
          "u1" 5242880 quotaDate0) "u1" 1048576 quotaDate0) "u1"
        quotaDate0).dailyUsage =
      (UserQuotaService.getUsage (UserQuotaService.recordUsage
        (UserQuotaService.recordUsage (UserQuotaService.mk true 100 1000 none [])
          "u1" 1048576 quotaDate0) "u1" 5242880 quotaDate0) "u1"
        quotaDate0).dailyUsage) ∧
    ((UserQuotaService.getUsage (UserQuotaService.recordUsage
        (UserQuotaService.recordUsage (UserQuotaService.mk true 100 1000 none [])
          "u1" 5242880 quotaDate0) "u1" 1048576 quotaDate0) "u1"
        quotaDate0).monthlyUsage =
      (UserQuotaService.getUsage (UserQuotaService.recordUsage
        (UserQuotaService.recordUsage (UserQuotaService.mk true 100 1000 none [])
          "u1" 1048576 quotaDate0) "u1" 5242880 quotaDate0) "u1"
        quotaDate0).monthlyUsage)) :=
  ⟨rfl, by decide,
   C7_record_additive_commutative (UserQuotaService.mk true 100 1000 none [])
     "u1" 1048576 5242880 quotaDate0 rfl (by decide)⟩

theorem mapGet_append_of_none {β : Type} (l1 l2 : List (String × β)) (k : String)
    (h : mapGet l1 k = none) : mapGet (l1 ++ l2) k = mapGet l2 k := by
  induction l1 with
  | nil => rfl
  | cons p rest ih =>
      obtain ⟨k', v'⟩ := p
      by_cases h2 : k' = k
      · simp [mapGet, h2] at h
      · simp only [mapGet, h2, if_false] at h
        simpa [mapGet, h2] using ih h

theorem mapGet_append_left {β : Type} (l1 l2 : List (String × β)) (k : String)
    (v : β) (h : mapGet l1 k = some v) : mapGet (l1 ++ l2) k = some v := by
  induction l1 with
  | nil => simp [mapGet] at h
  | cons p rest ih =>
      obtain ⟨k', v'⟩ := p
      by_cases h2 : k' = k
      · simp only [mapGet, h2, if_true] at h
        simpa [mapGet, h2] using h
      · simp only [mapGet, h2, if_false] at h
        simpa [mapGet, h2] using ih h

theorem replicate_d_ne (n : Nat) (t : String) (ht : t.data.head? = some 'q') :
    String.mk (List.replicate (n + 1) 'd') ≠ t := by
  intro h
  have hd := congrArg (fun s : String => s.data.head?) h
  dsimp only at hd
  rw [List.replicate_succ, List.head?_cons, ht] at hd
  simp at hd

theorem dummy_keys_ne (t : String) (ht : t.data.head? = some 'q') :
    ∀ p ∈ dummyEntries, p.1 ≠ t := by
  intro p hp
  simp only [dummyEntries, List.mem_map, List.mem_range] at hp
  obtain ⟨i, -, rfl⟩ := hp
  exact replicate_d_ne i t ht

theorem dailyKey_head :
    (dailyKey "u1" quotaDate0).data.head? = some 'q' := rfl

theorem monthlyKey_head :
    (monthlyKey "u1" quotaDate0).data.head? = some 'q' := rfl

/-- The cache left by the first over-threshold `recordUsage` call on
`bigCache`: the cleanup deleted the first 1000 keys — the two quota
buckets and 998 fillers. -/
def cleanedCache : List (String × Int) :=
  ((dummyEntries.map Prod.fst).take 998).foldl mapDelete dummyEntries

theorem cleanedCache_daily_none :
    mapGet cleanedCache (dailyKey "u1" quotaDate0) = none := by
  rw [cleanedCache, mapGet_foldl_mapDelete_ne]
  · exact mapGet_eq_none_of_forall _ _ (dummy_keys_ne _ dailyKey_head)
  · intro k' hk'
    have hk2 := List.mem_of_mem_take hk'
    simp only [List.mem_map] at hk2
    obtain ⟨p, hp, rfl⟩ := hk2
    exact dummy_keys_ne _ dailyKey_head p hp

theorem cleanedCache_monthly_none :
    mapGet cleanedCache (monthlyKey "u1" quotaDate0) = none := by
  rw [cleanedCache, mapGet_foldl_mapDelete_ne]
  · exact mapGet_eq_none_of_forall _ _ (dummy_keys_ne _ monthlyKey_head)
  · intro k' hk'
    have hk2 := List.mem_of_mem_take hk'
    simp only [List.mem_map] at hk2
    obtain ⟨p, hp, rfl⟩ := hk2
    exact dummy_keys_ne _ monthlyKey_head p hp

theorem cleanedCache_length : 1000 ≤ cleanedCache.length := by
  have h1 := length_foldl_mapDelete_ge ((dummyEntries.map Prod.fst).take 998)
    dummyEntries
  have h2 : dummyEntries.length = 10000 := by
    simp [dummyEntries]
  have h3 : ((dummyEntries.map Prod.fst).take 998).length ≤ 998 := by
    rw [List.length_take]
    omega
  rw [cleanedCache]
  omega

theorem cleanedCache_sub (p : String × Int) (hp : p ∈ cleanedCache) :
    p ∈ dummyEntries :=
  mem_of_mem_foldl_mapDelete _ _ _ hp

/-- The first `recordUsage` of 1 MB on `bigService`: both buckets are
bumped to 6, the cache reaches 10002 entries, and the cleanup deletes the
first 1000 insertion-ordered keys — the two buckets among them. -/
theorem record1_eq :
    UserQuotaService.recordUsage bigService "u1" 1048576 quotaDate0 =
      ⟨true, 100, 1000, none, cleanedCache⟩ := by
  have hne : dailyKey "u1" quotaDate0 ≠ monthlyKey "u1" quotaDate0 :=
    (monthlyKey_ne_dailyKey _ _).symm
  rw [show bigService = ⟨true, 100, 1000, none, bigCache⟩ from rfl,
    UserQuotaService.recordUsage]
  dsimp only
  rw [show bigCache =
      (dailyKey "u1" quotaDate0, 5) :: (monthlyKey "u1" quotaDate0, 5) ::
        dummyEntries from rfl]
  set dk := dailyKey "u1" quotaDate0 with hdk
  set mk := monthlyKey "u1" quotaDate0 with hmk
  have h1 : mapGet ((dk, (5 : Int)) :: (mk, (5 : Int)) :: dummyEntries) dk =
      some 5 := by
    rw [mapGet, if_pos rfl]
  have h2 : mapGet ((dk, (5 : Int)) :: (mk, (5 : Int)) :: dummyEntries) mk =
      some 5 := by
    rw [mapGet, if_neg hne, mapGet, if_pos rfl]
  rw [h1, h2,
    show (some (5 : Int)).getD 0 + ((mbOf 1048576 : Nat) : Int) = 6 from by
      decide]
  rw [show mapSet ((dk, (5 : Int)) :: (mk, (5 : Int)) :: dummyEntries) dk 6 =
      (dk, (6 : Int)) :: (mk, (5 : Int)) :: dummyEntries from by
    rw [mapSet, if_pos rfl]]
  rw [show mapSet ((dk, (6 : Int)) :: (mk, (5 : Int)) :: dummyEntries) mk 6 =
      (dk, (6 : Int)) :: (mk, (6 : Int)) :: dummyEntries from by
    rw [mapSet, if_neg hne, mapSet, if_pos rfl]]
  have hlen : ((dk, (6 : Int)) :: (mk, (6 : Int)) :: dummyEntries).length =
      10002 := by
    rw [List.length_cons, List.length_cons,
      show dummyEntries.length = 10000 from by
        rw [dummyEntries, List.length_map, List.length_range]]
  rw [if_pos (show ((dk, (6 : Int)) :: (mk, (6 : Int)) :: dummyEntries).length
      > 10000 from by rw [hlen]; omega)]
  rw [show ((dk, (6 : Int)) :: (mk, (6 : Int)) :: dummyEntries).map Prod.fst =
      dk :: mk :: dummyEntries.map Prod.fst from rfl]
  rw [show (dk :: mk :: dummyEntries.map Prod.fst).take 1000 =
      dk :: mk :: (dummyEntries.map Prod.fst).take 998 from rfl]
  rw [List.foldl_cons, List.foldl_cons]
  rw [show mapDelete ((dk, (6 : Int)) :: (mk, (6 : Int)) :: dummyEntries) dk =
      (mk, (6 : Int)) :: dummyEntries from by rw [mapDelete, if_pos rfl]]
  rw [show mapDelete ((mk, (6 : Int)) :: dummyEntries) mk = dummyEntries from by
    rw [mapDelete, if_pos rfl]]
  rw [show ((dummyEntries.map Prod.fst).take 998).foldl mapDelete dummyEntries
      = cleanedCache from rfl]
  simp

theorem getUsage_memory_daily (dl ml : Int) (c : List (String × Int))
    (u : String) (d : QDate) :
    (UserQuotaService.getUsage ⟨true, dl, ml, none, c⟩ u d).dailyUsage =
      (mapGet c (dailyKey u d)).getD 0 := rfl

/-- After the cleanup, the daily bucket is gone: the second `recordUsage`
restarts it at the rounded amount of that call alone. -/
theorem record2_daily :
    (UserQuotaService.getUsage
      (UserQuotaService.recordUsage ⟨true, 100, 1000, none, cleanedCache⟩
        "u1" 1048576 quotaDate0) "u1" quotaDate0).dailyUsage = 1 := by
  have hne : dailyKey "u1" quotaDate0 ≠ monthlyKey "u1" quotaDate0 :=
    (monthlyKey_ne_dailyKey _ _).symm
  have hne2 : monthlyKey "u1" quotaDate0 ≠ dailyKey "u1" quotaDate0 :=
    monthlyKey_ne_dailyKey _ _
  rw [UserQuotaService.recordUsage]
  dsimp only
  rw [if_neg (show ¬ (true = false) from by decide)]
  rw [cleanedCache_daily_none, cleanedCache_monthly_none,
    show (none : Option Int).getD 0 + ((mbOf 1048576 : Nat) : Int) = 1 from by
      decide]
  set dk := dailyKey "u1" quotaDate0 with hdk
  set mk := monthlyKey "u1" quotaDate0 with hmk
  set c2 := mapSet (mapSet cleanedCache dk 1) mk 1 with hc2
  have hget_d_c2 : mapGet c2 dk = some 1 := by
    rw [hc2, mapGet_mapSet_ne _ _ _ _ hne2, mapGet_mapSet_self]
  by_cases hcl : c2.length > 10000
  · rw [if_pos hcl]
    have happ1 : mapSet cleanedCache dk 1 = cleanedCache ++ [(dk, 1)] :=
      mapSet_eq_append_of_get_none _ _ _ cleanedCache_daily_none
    have hgetmk : mapGet (cleanedCache ++ [(dk, (1 : Int))]) mk = none := by
      rw [mapGet_append_of_none _ _ _ cleanedCache_monthly_none, mapGet,
        if_neg hne, mapGet]
    have happ2 : c2 = (cleanedCache ++ [(dk, 1)]) ++ [(mk, 1)] := by
      rw [hc2, happ1]
      exact mapSet_eq_append_of_get_none _ _ _ hgetmk
    have hkeys : c2.map Prod.fst = (cleanedCache.map Prod.fst ++ [dk]) ++ [mk] := by
      rw [happ2]
      simp
    have hlen1000 : 1000 ≤ (cleanedCache.map Prod.fst).length := by
      rw [List.length_map]
      exact cleanedCache_length
    have hlen1001 : 1000 ≤ (cleanedCache.map Prod.fst ++ [dk]).length := by
      rw [List.length_append, List.length_map, List.length_singleton]
      have := cleanedCache_length
      omega
    have htake : (c2.map Prod.fst).take 1000 =
        (cleanedCache.map Prod.fst).take 1000 := by
      rw [hkeys, List.take_append_of_le_length hlen1001,
        List.take_append_of_le_length hlen1000]
    have hdel : ∀ k' ∈ (c2.map Prod.fst).take 1000, k' ≠ dk := by
      rw [htake]
      intro k' hk'
      have hm := List.mem_of_mem_take hk'
      simp only [List.mem_map] at hm
      obtain ⟨p, hp, rfl⟩ := hm
      exact dummy_keys_ne _ dailyKey_head p (cleanedCache_sub p hp)
    have hfin : mapGet (((c2.map Prod.fst).take 1000).foldl mapDelete c2) dk =
        some 1 := by
      rw [mapGet_foldl_mapDelete_ne _ _ _ hdel]
      exact hget_d_c2
    rw [getUsage_memory_daily, hfin]
    rfl
  · rw [if_neg hcl]
    rw [getUsage_memory_daily, hget_d_c2]
    rfl

/-- C7 (counterexample): the claim fails once the in-memory cache crosses
the 10000-entry cleanup threshold.  On `bigService` (prior daily total 5,
10002 cache entries after the bump), recording A = B = 1 MB for the same
day leaves the stored daily total at 1 — the first call's cleanup deleted
the first 1000 keys, the daily and monthly buckets among them — not at
the prior total plus `ceil(A/2^20) + ceil(B/2^20)` = 7. -/
theorem C7_counterexample :
    ((UserQuotaService.getUsage bigService "u1" quotaDate0).dailyUsage = 5) ∧
    (mbOf 1048576 = 1) ∧
    ((UserQuotaService.getUsage
        (UserQuotaService.recordUsage
          (UserQuotaService.recordUsage bigService "u1" 1048576 quotaDate0)
          "u1" 1048576 quotaDate0) "u1" quotaDate0).dailyUsage = 1) ∧
    ((1 : Int) ≠ 5 + (mbOf 1048576 : Int) + (mbOf 1048576 : Int)) := by
  refine ⟨?_, by decide, ?_, by decide⟩
  · rw [show bigService = ⟨true, 100, 1000, none, bigCache⟩ from rfl,
      getUsage_memory_daily]
    rw [show bigCache =
        (dailyKey "u1" quotaDate0, 5) :: (monthlyKey "u1" quotaDate0, 5) ::
          dummyEntries from rfl, mapGet, if_pos rfl]
    rfl
  · rw [record1_eq]
    exact record2_daily
